import Mathlib

/-!
Shallow embedding of the scraping/normalization pipeline of `scrapers.py`
(BaseScraper, the six concrete scrapers, and NewsAggregator), together with
theorems about the specified properties.

BeautifulSoup elements are abstracted as records whose fields hold the result
of the individual element lookups that the Python loops perform
(`card.get('href')`, `card.find(['h2','h3','h4']).get_text(strip=True)`, …).
The regular expressions used by the code are fixed patterns; each is embedded
as an executable matcher with Python `re.search` semantics (leftmost match,
ordered alternation, greedy quantifiers, full backtracking where it can
matter).  `datetime.strptime` is embedded for exactly the format strings the
code uses, following CPython `_strptime`: each directive becomes the regex
alternation `_strptime` compiles for it, the whole format must consume the
entire string, and the resulting components are validated the way the
`datetime` constructor validates them.  All text is ASCII in the inputs the
scrapers handle; character classes are embedded at ASCII granularity.
-/

namespace AINews

/-- Python whitespace characters recognised by `str.strip` / `\s` (ASCII part). -/
def pyWhitespaceChar (c : Char) : Bool :=
  c = ' ' || c = '\t' || c = '\n' || c = '\r' || c = '\x0b' || c = '\x0c'

/-- `str.strip()` on a character list: drop whitespace from both ends. -/
def pyStripChars (s : List Char) : List Char :=
  ((s.dropWhile pyWhitespaceChar).reverse.dropWhile pyWhitespaceChar).reverse

/-- `str.startswith(pre)`. -/
def pyStartsWith (s pre : String) : Bool :=
  pre.toList.isPrefixOf s.toList

/-- Substring search on character lists (`needle in hay`). -/
def charsContains (needle : List Char) : List Char → Bool
  | [] => needle.isEmpty
  | c :: rest => needle.isPrefixOf (c :: rest) || charsContains needle rest

/-- `sub in s` for Python strings; also the semantics of `re.search` for a
pattern that is a literal (as in `re.compile(r'/news/')`). -/
def pyContains (s sub : String) : Bool :=
  charsContains sub.toList s.toList

/-- Numeric value of an ASCII digit. -/
def dval (c : Char) : Nat := c.toNat - '0'.toNat

/-- `lo ≤ c ≤ hi` on ASCII codes, for regex character ranges. -/
def charBetween (c lo hi : Char) : Bool :=
  lo.toNat ≤ c.toNat && c.toNat ≤ hi.toNat

/-! ## `datetime.strptime`, for the formats used by `parse_date` -/

/-- The time components `_strptime` accumulates; fields default exactly as
CPython defaults them (year 1900, month 1, day 1, midnight). -/
structure PTime where
  y : Nat := 1900
  mo : Nat := 1
  d : Nat := 1
  hh : Nat := 0
  mm : Nat := 0
  ss : Nat := 0
deriving Repr, DecidableEq

/-- One `strptime` directive (or literal piece) of a format string.  `ws` is
the `\s+` that `_strptime` substitutes for any whitespace run in the format. -/
inductive Dir where
  | lit : Char → Dir
  | ws : Dir
  | year : Dir
  | month2 : Dir
  | day2 : Dir
  | hour : Dir
  | minute : Dir
  | second : Dir
  | frac : Dir
  | monthFull : Dir
  | monthAbbr : Dir
deriving Repr, DecidableEq

/-- `%m` alternation `1[0-2]|0[1-9]|[1-9]`, in `_strptime` order. -/
def month2Alts (s : List Char) : List (Nat × List Char) :=
  (match s with
   | '1' :: c :: r => if charBetween c '0' '2' then [(10 + dval c, r)] else []
   | _ => []) ++
  (match s with
   | '0' :: c :: r => if charBetween c '1' '9' then [(dval c, r)] else []
   | _ => []) ++
  (match s with
   | c :: r => if charBetween c '1' '9' then [(dval c, r)] else []
   | _ => [])

/-- `%d` alternation `3[01]|[12]\d|0[1-9]|[1-9]`. -/
def day2Alts (s : List Char) : List (Nat × List Char) :=
  (match s with
   | '3' :: c :: r => if charBetween c '0' '1' then [(30 + dval c, r)] else []
   | _ => []) ++
  (match s with
   | c :: c2 :: r =>
     if charBetween c '1' '2' && c2.isDigit then [(10 * dval c + dval c2, r)] else []
   | _ => []) ++
  (match s with
   | '0' :: c :: r => if charBetween c '1' '9' then [(dval c, r)] else []
   | _ => []) ++
  (match s with
   | c :: r => if charBetween c '1' '9' then [(dval c, r)] else []
   | _ => [])

/-- `%H` alternation `2[0-3]|[0-1]\d|\d`. -/
def hourAlts (s : List Char) : List (Nat × List Char) :=
  (match s with
   | '2' :: c :: r => if charBetween c '0' '3' then [(20 + dval c, r)] else []
   | _ => []) ++
  (match s with
   | c :: c2 :: r =>
     if charBetween c '0' '1' && c2.isDigit then [(10 * dval c + dval c2, r)] else []
   | _ => []) ++
  (match s with
   | c :: r => if c.isDigit then [(dval c, r)] else []
   | _ => [])

/-- `%M` alternation `[0-5]\d|\d`. -/
def minuteAlts (s : List Char) : List (Nat × List Char) :=
  (match s with
   | c :: c2 :: r =>
     if charBetween c '0' '5' && c2.isDigit then [(10 * dval c + dval c2, r)] else []
   | _ => []) ++
  (match s with
   | c :: r => if c.isDigit then [(dval c, r)] else []
   | _ => [])

/-- `%S` alternation `6[0-1]|[0-5]\d|\d`. -/
def secondAlts (s : List Char) : List (Nat × List Char) :=
  (match s with
   | '6' :: c :: r => if charBetween c '0' '1' then [(60 + dval c, r)] else []
   | _ => []) ++
  (match s with
   | c :: c2 :: r =>
     if charBetween c '0' '5' && c2.isDigit then [(10 * dval c + dval c2, r)] else []
   | _ => []) ++
  (match s with
   | c :: r => if c.isDigit then [(dval c, r)] else []
   | _ => [])

/-- Case-insensitive literal prefix match (the month-name regexes are compiled
with `re.IGNORECASE`); names are stored lowercase.  Returns the rest of the
input on success. -/
def ciMatchRest : List Char → List Char → Option (List Char)
  | [], s => some s
  | _ :: _, [] => none
  | p :: ps, c :: cs => if c.toLower = p then ciMatchRest ps cs else none

/-- Full month names, in the order `_strptime` places them in its alternation
(sorted by length, descending, stable in Jan..Dec order). -/
def monthsFull : List (List Char × Nat) :=
  [("september".toList, 9), ("february".toList, 2), ("november".toList, 11),
   ("december".toList, 12), ("january".toList, 1), ("october".toList, 10),
   ("august".toList, 8), ("march".toList, 3), ("april".toList, 4),
   ("june".toList, 6), ("july".toList, 7), ("may".toList, 5)]

/-- Abbreviated month names (all length 3, `_strptime` alternation order). -/
def monthsAbbr : List (List Char × Nat) :=
  [("jan".toList, 1), ("feb".toList, 2), ("mar".toList, 3), ("apr".toList, 4),
   ("may".toList, 5), ("jun".toList, 6), ("jul".toList, 7), ("aug".toList, 8),
   ("sep".toList, 9), ("oct".toList, 10), ("nov".toList, 11), ("dec".toList, 12)]

/-- All ways a directive can consume a prefix of the input, in regex
alternation/greediness order, each paired with the updated components. -/
def step (t : PTime) (d : Dir) (s : List Char) : List (PTime × List Char) :=
  match d with
  | .lit ch =>
    match s with
    | c :: r => if c.toLower = ch.toLower then [(t, r)] else []
    | [] => []
  | .ws =>
    let n := (s.takeWhile pyWhitespaceChar).length
    (List.range n).map (fun k => (t, s.drop (n - k)))
  | .year =>
    match s with
    | a :: b :: c :: e :: r =>
      if a.isDigit && b.isDigit && c.isDigit && e.isDigit then
        [({ t with y := 1000 * dval a + 100 * dval b + 10 * dval c + dval e }, r)]
      else []
    | _ => []
  | .month2 => (month2Alts s).map (fun p => ({ t with mo := p.1 }, p.2))
  | .day2 => (day2Alts s).map (fun p => ({ t with d := p.1 }, p.2))
  | .hour => (hourAlts s).map (fun p => ({ t with hh := p.1 }, p.2))
  | .minute => (minuteAlts s).map (fun p => ({ t with mm := p.1 }, p.2))
  | .second => (secondAlts s).map (fun p => ({ t with ss := p.1 }, p.2))
  | .frac =>
    let n := min 6 (s.takeWhile Char.isDigit).length
    (List.range n).map (fun k => (t, s.drop (n - k)))
  | .monthFull =>
    monthsFull.filterMap (fun p => (ciMatchRest p.1 s).map (fun r => ({ t with mo := p.2 }, r)))
  | .monthAbbr =>
    monthsAbbr.filterMap (fun p => (ciMatchRest p.1 s).map (fun r => ({ t with mo := p.2 }, r)))

/-- Anchored match of a whole format against the whole input (after a regex
match `_strptime` raises unless `found.end()` is the end of the string, so the
rest must be empty), with backtracking across alternatives. -/
def matchDirs : List Dir → PTime → List Char → Option PTime
  | [], t, s => if s.isEmpty then some t else none
  | d :: ds, t, s => (step t d s).findSome? (fun p => matchDirs ds p.1 p.2)

def isLeap (y : Nat) : Bool :=
  (y % 4 = 0 && y % 100 ≠ 0) || y % 400 = 0

def daysInMonth (y m : Nat) : Nat :=
  if m = 2 then (if isLeap y then 29 else 28)
  else if m = 4 || m = 6 || m = 9 || m = 11 then 30
  else 31

/-- Calendar-date validity as enforced by `datetime.date` (`MINYEAR = 1`,
`MAXYEAR = 9999`). -/
def dateOK (y m d : Nat) : Bool :=
  1 ≤ y && y ≤ 9999 && 1 ≤ m && m ≤ 12 && 1 ≤ d && d ≤ daysInMonth y m

/-- The validation the `datetime` constructor performs on the components
`strptime` extracted (an out-of-range component raises `ValueError`, which
`parse_date` catches like a format mismatch). -/
def datetimeOK (t : PTime) : Bool :=
  dateOK t.y t.mo t.d && t.hh ≤ 23 && t.mm ≤ 59 && t.ss ≤ 59

/-- `datetime.strptime(s, fmt).date()`: match the format, then validate. -/
def strptimeDate (fmt : List Dir) (s : List Char) : Option (Nat × Nat × Nat) :=
  match matchDirs fmt {} s with
  | none => none
  | some t => if datetimeOK t then some (t.y, t.mo, t.d) else none

def pad2 (n : Nat) : String :=
  if n < 10 then "0" ++ toString n else toString n

def pad4 (n : Nat) : String :=
  if n < 10 then "000" ++ toString n
  else if n < 100 then "00" ++ toString n
  else if n < 1000 then "0" ++ toString n
  else toString n

/-- `date(y, m, d).isoformat()`. -/
def isoformat (y m d : Nat) : String :=
  pad4 y ++ "-" ++ pad2 m ++ "-" ++ pad2 d

/-- `'%Y-%m-%d'` -/
def fmtYmd : List Dir := [.year, .lit '-', .month2, .lit '-', .day2]
/-- `'%B %d, %Y'` -/
def fmtBdY : List Dir := [.monthFull, .ws, .day2, .lit ',', .ws, .year]
/-- `'%b %d, %Y'` -/
def fmtbdY : List Dir := [.monthAbbr, .ws, .day2, .lit ',', .ws, .year]
/-- `'%d %B %Y'` -/
def fmtdBY : List Dir := [.day2, .ws, .monthFull, .ws, .year]
/-- `'%Y-%m-%dT%H:%M:%S'` -/
def fmtIsoT : List Dir :=
  [.year, .lit '-', .month2, .lit '-', .day2, .lit 'T', .hour, .lit ':', .minute, .lit ':', .second]
/-- `'%Y-%m-%dT%H:%M:%S.%fZ'` -/
def fmtIsoTfZ : List Dir := fmtIsoT ++ [.lit '.', .frac, .lit 'Z']

/-- The ordered format list of `BaseScraper.parse_date`. -/
def parseDateFormats : List (List Dir) :=
  [fmtYmd, fmtBdY, fmtbdY, fmtdBY, fmtIsoT, fmtIsoTfZ]

/-! ### The fallback regex `(\w+ \d+, \d{4})` -/

/-- `\w` at ASCII granularity. -/
def wordChar (c : Char) : Bool := c.isAlpha || c.isDigit || c = '_'

/-- Anchored match of `\w+ \d+, \d{4}` at the head of the input, returning the
matched group.  (`\w+` and `\d+` are greedy; since neither `' '` nor `','` is
in the repeated class, backtracking cannot recover from a failure, so the
maximal-munch reading is exact.) -/
def matchWordDateAt (s : List Char) : Option (List Char) :=
  let run1 := s.takeWhile wordChar
  if run1.isEmpty then none
  else
    match s.drop run1.length with
    | ' ' :: r2 =>
      let digits := r2.takeWhile Char.isDigit
      if digits.isEmpty then none
      else
        match r2.drop digits.length with
        | ',' :: ' ' :: y1 :: y2 :: y3 :: y4 :: _ =>
          if y1.isDigit && y2.isDigit && y3.isDigit && y4.isDigit then
            some (run1 ++ [' '] ++ digits ++ [',', ' ', y1, y2, y3, y4])
          else none
        | _ => none
    | _ => none

/-- `re.search(r'(\w+ \d+, \d{4})', s)`: first start position with a match. -/
def reSearchWordDate : List Char → Option (List Char)
  | [] => none
  | c :: rest =>
    match matchWordDateAt (c :: rest) with
    | some g => some g
    | none => reSearchWordDate rest

/-- `BaseScraper.parse_date`.  `if not date_str` is Python falsiness of the
empty string; the format loop runs on `date_str.strip()`, the fallback regex
on the original `date_str`. -/
def parse_date (date_str : String) : Option String :=
  if date_str = "" then none
  else
    match parseDateFormats.findSome?
        (fun fmt => strptimeDate fmt (pyStripChars date_str.toList)) with
    | some (y, m, d) => some (isoformat y m d)
    | none =>
      match reSearchWordDate date_str.toList with
      | some g =>
        match strptimeDate fmtBdY g with
        | some (y, m, d) => some (isoformat y m d)
        | none => none
      | none => none

/-! ## The inline date regexes of the scrapers -/

/-- Tail `\d{1,2}, \d{4}` with the day taken greedily: two digits first. -/
def dayYear2 (r : List Char) : Option (List Char) :=
  match r with
  | d1 :: d2 :: ',' :: ' ' :: y1 :: y2 :: y3 :: y4 :: _ =>
    if d1.isDigit && d2.isDigit && y1.isDigit && y2.isDigit && y3.isDigit && y4.isDigit then
      some [d1, d2, ',', ' ', y1, y2, y3, y4]
    else none
  | _ => none

def dayYear1 (r : List Char) : Option (List Char) :=
  match r with
  | d1 :: ',' :: ' ' :: y1 :: y2 :: y3 :: y4 :: _ =>
    if d1.isDigit && y1.isDigit && y2.isDigit && y3.isDigit && y4.isDigit then
      some [d1, ',', ' ', y1, y2, y3, y4]
    else none
  | _ => none

def dayYear (r : List Char) : Option (List Char) :=
  (dayYear2 r).orElse (fun _ => dayYear1 r)

/-- Anchored match of `[A-Z][a-z]{2} \d{1,2}, \d{4}` (Anthropic / Every.to). -/
def matchCap3At (s : List Char) : Option (List Char) :=
  match s with
  | a :: b :: c :: ' ' :: r =>
    if a.isUpper && b.isLower && c.isLower then
      (dayYear r).map (fun tail => a :: b :: c :: ' ' :: tail)
    else none
  | _ => none

/-- Anchored match of `[A-Z][a-z]+ \d{1,2}, \d{4}` (NVIDIA); `[a-z]+` is
greedy and the following literal `' '` is not lowercase, so maximal munch is
exact. -/
def matchCapPlusAt (s : List Char) : Option (List Char) :=
  match s with
  | a :: rest =>
    if a.isUpper then
      let low := rest.takeWhile Char.isLower
      if low.isEmpty then none
      else
        match rest.drop low.length with
        | ' ' :: r => (dayYear r).map (fun tail => a :: (low ++ ' ' :: tail))
        | _ => none
    else none
  | [] => none

/-- `re.search(r'([A-Z][a-z]{2} \d{1,2}, \d{4})', s)`. -/
def reSearchCap3 : List Char → Option (List Char)
  | [] => none
  | c :: rest =>
    match matchCap3At (c :: rest) with
    | some g => some g
    | none => reSearchCap3 rest

/-- `re.search(r'([A-Z][a-z]+ \d{1,2}, \d{4})', s)`. -/
def reSearchCapPlus : List Char → Option (List Char)
  | [] => none
  | c :: rest =>
    match matchCapPlusAt (c :: rest) with
    | some g => some g
    | none => reSearchCapPlus rest

/-! ## Data model -/

/-- The normalized article record each scraper appends. -/
structure Article where
  source : String
  title : String
  link : String
  summary : Option String
  published_date : Option String
deriving Repr, DecidableEq

/-- Abstraction of one BeautifulSoup element as the scraper loops read it.
Each field holds the result of one lookup the Python code performs:
* `href`            — the element's `href` attribute (`card.get('href')`);
* `heading`         — `card.find(['h2','h3','h4']).get_text(strip=True)`,
                      `none` when no nested heading exists;
* `innerLink`       — `card.find('a', href=True)` as `(href, get_text(strip=True))`;
* `timeElem`        — `card.find('time')` as `(datetime attribute, stripped text)`;
* `firstP`          — stripped text of the first nested `<p>` (this is both
                      `card.find('p')` and `card.find_all('p')[0]`);
* `text`            — `card.get_text()`;
* `textStripped`    — `card.get_text(strip=True)`. -/
structure Card where
  href : Option String := none
  heading : Option String := none
  innerLink : Option (String × String) := none
  timeElem : Option (Option String × String) := none
  firstP : Option String := none
  text : String := ""
  textStripped : String := ""
deriving Repr, DecidableEq

/-- `soup.find_all('a', href=re.compile(pat))` for the literal patterns the
code uses (`r'/news/'`, `r'/'`): keep anchors whose `href` attribute exists
and contains the pattern. -/
def anchorHrefMatches (pat : String) (c : Card) : Bool :=
  match c.href with
  | some h => pyContains h pat
  | none => false

/-! ## The six scrapers (page fetched, content abstracted as element lists) -/

/-- Per-candidate body of `OpenAIScraper.scrape` (candidates with no nested
heading are skipped; no title-length filter, no dedup). -/
def openAIProcess (card : Card) : Option Article :=
  match card.heading with
  | none => none
  | some title =>
    let link0 := card.href.getD ""
    let link := if pyStartsWith link0 "/" then "https://openai.com" ++ link0 else link0
    let published := match card.timeElem with
      | some te => parse_date te.2
      | none => none
    some ⟨"OpenAI", title, link, card.firstP, published⟩

/-- `OpenAIScraper.scrape` on a fetched page, given the page's anchor
elements: filter by the href pattern, slice to the first 10, process each. -/
def openAIScrape (anchors : List Card) : List Article :=
  ((anchors.filter (anchorHrefMatches "/news/")).take 10).filterMap openAIProcess

/-- Per-candidate body of `AnthropicScraper.scrape`. -/
def anthropicProcess (card : Card) : Option Article :=
  match card.heading with
  | none => none
  | some title =>
    let link0 := card.href.getD ""
    let link := if pyStartsWith link0 "/" then "https://www.anthropic.com" ++ link0 else link0
    let published := match reSearchCap3 card.text.toList with
      | some g => parse_date (String.mk g)
      | none => none
    some ⟨"Anthropic", title, link, card.firstP, published⟩

def anthropicScrape (anchors : List Card) : List Article :=
  ((anchors.filter (anchorHrefMatches "/news/")).take 10).filterMap anthropicProcess

/-- Per-candidate body of `GoogleGeminiScraper.scrape`: candidates without a
nested link are skipped; a missing heading falls back to the link element's
own text; the date string is `date_elem.get('datetime') or
date_elem.get_text(strip=True)` (Python `or`: the attribute unless it is
absent or empty). -/
def googleGeminiProcess (card : Card) : Option Article :=
  match card.innerLink with
  | none => none
  | some (lh, ltext) =>
    let link := if pyStartsWith lh "/" then "https://blog.google" ++ lh else lh
    let title := match card.heading with
      | some t => t
      | none => ltext
    let published := match card.timeElem with
      | some (dtAttr, ttext) =>
        let dateStr := match dtAttr with
          | some a => if a = "" then ttext else a
          | none => ttext
        parse_date dateStr
      | none => none
    some ⟨"Google Gemini", title, link, card.firstP, published⟩

/-- `GoogleGeminiScraper.scrape` on the page's `<article>` elements. -/
def googleGeminiScrape (cards : List Card) : List Article :=
  (cards.take 10).filterMap googleGeminiProcess

/-- Per-candidate body of `NVIDIAScraper.scrape`: link required, heading with
fallback to the link element's text, then the title-length filter
`len(title) < 10 → continue`. -/
def nvidiaProcess (card : Card) : Option Article :=
  match card.innerLink with
  | none => none
  | some (lh, ltext) =>
    let link := if pyStartsWith lh "/" then "https://nvidianews.nvidia.com" ++ lh else lh
    let title := match card.heading with
      | some t => t
      | none => ltext
    if title.length < 10 then none
    else
      let published := match reSearchCapPlus card.text.toList with
        | some g => parse_date (String.mk g)
        | none => none
      some ⟨"NVIDIA", title, link, card.firstP, published⟩

/-- `NVIDIAScraper.scrape` on the container elements matched by its
tag/class filter. -/
def nvidiaScrape (cards : List Card) : List Article :=
  (cards.take 10).filterMap nvidiaProcess

/-- One entry of the Deep View RSS feed as the loop reads it.
`summaryText` is the text content of `entry.summary` after BeautifulSoup tag
stripping (the parse itself is outside the embedding); `publishedParsed` is
`entry.published_parsed[:6]` when present and truthy. -/
structure FeedEntry where
  title : String
  link : String
  summaryText : Option String := none
  publishedParsed : Option (Nat × Nat × Nat × Nat × Nat × Nat) := none
deriving Repr, DecidableEq

/-- The entry summary: cleaned text, truncated with `[:500]`. -/
def feedSummary (e : FeedEntry) : Option String :=
  e.summaryText.map (fun s => String.mk (s.toList.take 500))

/-- One iteration of the `DeepViewScraper.scrape` loop; `none` models an
exception escaping the iteration (`datetime(*entry.published_parsed[:6])`
raising), which aborts the whole scrape since the `try` wraps the loop. -/
def deepViewEntry (e : FeedEntry) : Option Article :=
  match e.publishedParsed with
  | some (y, mo, d, hh, mm, ss) =>
    if datetimeOK ⟨y, mo, d, hh, mm, ss⟩ then
      some ⟨"The Deep View", e.title, e.link, feedSummary e, some (isoformat y mo d)⟩
    else none
  | none => some ⟨"The Deep View", e.title, e.link, feedSummary e, none⟩

def deepViewLoop : List FeedEntry → Option (List Article)
  | [] => some []
  | e :: rest =>
    match deepViewEntry e with
    | none => none
    | some a =>
      match deepViewLoop rest with
      | none => none
      | some l => some (a :: l)

/-- `DeepViewScraper.scrape` on the feed's entry list: first 10 entries; any
exception inside the loop makes the whole call return `[]`. -/
def deepViewScrape (entries : List FeedEntry) : List Article :=
  match deepViewLoop (entries.take 10) with
  | some l => l
  | none => []

/-- The accepted link substrings of `EveryToScraper.scrape`. -/
def everyToArticleLink (link : String) : Bool :=
  pyContains link "every.to/p/" || pyContains link "every.to/c/" ||
    pyContains link "every.to/chain-of-thought"

/-- The loop of `EveryToScraper.scrape`, with its seen-link set (checked on
the raw href, filled with the resolved link) and its `break` once 10 articles
have been collected. -/
def everyToLoop : List Card → List Article → List String → List Article
  | [], articles, _ => articles
  | card :: rest, articles, seen =>
    let link0 := card.href.getD ""
    if link0 ∈ seen then everyToLoop rest articles seen
    else
      let link := if pyStartsWith link0 "/" then "https://every.to" ++ link0 else link0
      if everyToArticleLink link = false then everyToLoop rest articles seen
      else
        let seen2 := link :: seen
        let titleOpt : Option String :=
          match card.heading with
          | none =>
            let t := card.textStripped
            if t.length > 200 || t.length < 10 then none else some t
          | some ht => some ht
        match titleOpt with
        | none => everyToLoop rest articles seen2
        | some title =>
          let published := match reSearchCap3 card.text.toList with
            | some g => parse_date (String.mk g)
            | none => none
          let articles2 := articles ++ [⟨"Every.to", title, link, card.firstP, published⟩]
          if articles2.length ≥ 10 then articles2 else everyToLoop rest articles2 seen2

/-- `EveryToScraper.scrape` on the page's anchor elements. -/
def everyToScrape (anchors : List Card) : List Article :=
  everyToLoop (anchors.filter (anchorHrefMatches "/")) [] []

/-! ## The aggregator -/

inductive ScraperKind where
  | openAI | anthropic | googleGemini | deepView | nvidia | everyTo
deriving Repr, DecidableEq

/-- `scraper.__class__.__name__` for each scraper object. -/
def className : ScraperKind → String
  | .openAI => "OpenAIScraper"
  | .anthropic => "AnthropicScraper"
  | .googleGemini => "GoogleGeminiScraper"
  | .deepView => "DeepViewScraper"
  | .nvidia => "NVIDIAScraper"
  | .everyTo => "EveryToScraper"

/-- The fixed scraper list built in `NewsAggregator.__init__`. -/
def aggregatorScrapers : List ScraperKind :=
  [.openAI, .anthropic, .googleGemini, .deepView, .nvidia, .everyTo]

/-- `str.replace(pat, rep)` scanning left to right over non-overlapping
occurrences; the fuel argument (the string's length suffices) only makes the
recursion structural. -/
def pyReplaceAux (pat rep : List Char) : Nat → List Char → List Char
  | _, [] => []
  | 0, s => s
  | fuel + 1, c :: rest =>
    if pat.isPrefixOf (c :: rest) then
      rep ++ pyReplaceAux pat rep fuel ((c :: rest).drop pat.length)
    else c :: pyReplaceAux pat rep fuel rest

/-- `str.replace` for the non-empty patterns the code uses. -/
def pyReplace (s pat rep : String) : String :=
  if pat.toList.isEmpty then s
  else String.mk (pyReplaceAux pat.toList rep.toList s.toList.length s.toList)

/-- One iteration of the `scrape_all` loop: derive the source name from the
class name, then `try` the scrape — an exception becomes an empty entry. -/
def scrapeAllEntry (scraper : ScraperKind) (r : Except String (List Article)) :
    String × List Article :=
  let sourceName := pyReplace (className scraper) "Scraper" ""
  match r with
  | .ok articles => (sourceName, articles)
  | .error _ => (sourceName, [])

/-- `NewsAggregator.scrape_all`.  Each scraper's `scrape()` call is an
external effect, supplied as `run`; `Except` carries an exception escaping
the call.  The dict (insertion-ordered) is an association list. -/
def scrape_all (run : ScraperKind → Except String (List Article)) :
    List (String × List Article) :=
  aggregatorScrapers.map (fun scraper => scrapeAllEntry scraper (run scraper))

/-! ## The fetch layer -/

/-- The attempt loop of `BaseScraper.fetch_page`.  `attempts i` is the
outcome of the `requests.get` on the i-th attempt (`some text` on success,
`none` for a `RequestException`).  The structural argument is the number of
loop iterations left (`retries - attempt`); the returned list records the
`time.sleep(2 ** attempt)` calls, in order. -/
def fetchPageAux (attempts : Nat → Option String) : Nat → Nat → Option String × List Nat
  | 0, _ => (none, [])
  | remaining + 1, attempt =>
    match attempts attempt with
    | some text => (some text, [])
    | none =>
      if remaining = 0 then (none, [])
      else
        let r := fetchPageAux attempts remaining (attempt + 1)
        (r.1, 2 ^ attempt :: r.2)

/-- `BaseScraper.fetch_page` with the sleeps it performs made observable. -/
def fetch_page (attempts : Nat → Option String) (retries : Nat) :
    Option String × List Nat :=
  fetchPageAux attempts retries 0

/-- "Absolute URL" in the sense of the specification (`http`/`https`). -/
def isAbsoluteUrl (s : String) : Bool :=
  pyStartsWith s "http://" || pyStartsWith s "https://"

/-! ## Helper lemmas -/

theorem findSome?_eq_some_exists {α β : Type} {f : α → Option β} :
    ∀ {l : List α} {b : β}, l.findSome? f = some b → ∃ a, f a = some b := by
  intro l
  induction l with
  | nil => intro b h; simp [List.findSome?] at h
  | cons a as ih =>
    intro b h
    simp only [List.findSome?] at h
    cases hfa : f a with
    | some c =>
      rw [hfa] at h
      exact ⟨a, by rw [hfa]; exact h⟩
    | none =>
      rw [hfa] at h
      exact ih h

theorem strptimeDate_dateOK {fmt : List Dir} {s : List Char} {y m d : Nat}
    (h : strptimeDate fmt s = some (y, m, d)) : dateOK y m d = true := by
  unfold strptimeDate at h
  split at h
  · exact absurd h (by simp)
  · rename_i t _
    split at h
    · rename_i hv
      injection h with h'
      simp only [Prod.mk.injEq] at h'
      obtain ⟨rfl, rfl, rfl⟩ := h'
      unfold datetimeOK at hv
      simp only [Bool.and_eq_true] at hv
      exact hv.1.1.1
    · exact absurd h (by simp)

theorem all_filterMap {α β : Type} (f : α → Option β) (p : β → Bool)
    (hf : ∀ x b, f x = some b → p b = true) :
    ∀ l : List α, (l.filterMap f).all p = true := by
  intro l
  induction l with
  | nil => rfl
  | cons x xs ih =>
    rw [List.filterMap_cons]
    cases hx : f x with
    | none => exact ih
    | some b => simp only [List.all_cons, Bool.and_eq_true]; exact ⟨hf x b hx, ih⟩

/-! ## C2: the DateNormalizer round-trip table -/

/-- **C2, counterexample.**  The spec's round-trip table claims
`parse_date("2024-01-01T10:00:00Z") = "2024-01-01"`, but the code returns
null for that input: the `'%Y-%m-%dT%H:%M:%S'` format leaves the trailing
`Z` unconverted, the `'.%fZ'` format requires fractional seconds, and the
fallback regex needs a space inside the match. -/
theorem parse_date_z_suffix_counterexample :
    ¬ parse_date "2024-01-01T10:00:00Z" = some "2024-01-01" := by decide

/-- **C2, amended.**  The round-trip table as the code actually behaves:
the first three rows and the `"not a date"` row hold as specified, while
`"2024-01-01T10:00:00Z"` parses to null rather than `"2024-01-01"`. -/
theorem parse_date_round_trip :
    parse_date "2024-01-01" = some "2024-01-01" ∧
    parse_date "January 5, 2024" = some "2024-01-05" ∧
    parse_date "Jan 5, 2024" = some "2024-01-05" ∧
    parse_date "2024-01-01T10:00:00Z" = none ∧
    parse_date "not a date" = none := by
  exact ⟨by decide, by decide, by decide, by decide, by decide⟩

/-! ## C6: parse_date is total and returns only ISO calendar dates -/

/-- **C6.**  `parse_date` never fails: for every input string it returns
either null or the ISO rendering (date portion only) of a valid calendar
date; unparseable input yields null, not an error (the function is total). -/
theorem parse_date_none_or_valid_iso (s : String) :
    parse_date s = none ∨
      ∃ y m d, dateOK y m d = true ∧ parse_date s = some (isoformat y m d) := by
  unfold parse_date
  by_cases hs : s = ""
  · left; rw [if_pos hs]
  · rw [if_neg hs]
    cases hf : parseDateFormats.findSome?
        (fun fmt => strptimeDate fmt (pyStripChars s.toList)) with
    | some v =>
      obtain ⟨y, m, d⟩ := v
      right
      obtain ⟨fmt, hfmt⟩ := findSome?_eq_some_exists hf
      exact ⟨y, m, d, strptimeDate_dateOK hfmt, rfl⟩
    | none =>
      cases hr : reSearchWordDate s.toList with
      | none => left; rfl
      | some g =>
        cases hg : strptimeDate fmtBdY g with
        | none =>
          left
          show (match strptimeDate fmtBdY g with
                | some (y, m, d) => some (isoformat y m d)
                | none => none) = none
          rw [hg]
        | some v =>
          obtain ⟨y, m, d⟩ := v
          right
          refine ⟨y, m, d, strptimeDate_dateOK hg, ?_⟩
          show (match strptimeDate fmtBdY g with
                | some (y, m, d) => some (isoformat y m d)
                | none => none) = some (isoformat y m d)
          rw [hg]

/-! ## C7: the backoff schedule of fetch_page -/

/-- All attempts fail with a `RequestException`. -/
def allAttemptsFail : Nat → Option String := fun _ => none

/-- **C7, counterexample.**  With the default retry limit of 3 and every
attempt failing, the performed waits are not the claimed `[1, 2, 4]`: the
code sleeps only between attempts (`attempt < retries - 1`), so the last
attempt is followed by no wait and the sleeps are `[1, 2]`. -/
theorem fetch_page_sleeps_counterexample :
    ¬ (fetch_page allAttemptsFail 3).2 = [1, 2, 4] := by decide

theorem fetchPageAux_all_fail (attempts : Nat → Option String)
    (h : ∀ i, attempts i = none) :
    ∀ rem att, fetchPageAux attempts rem att =
      (none, (List.range (rem - 1)).map (fun k => 2 ^ (att + k))) := by
  intro rem
  induction rem with
  | zero => intro att; rfl
  | succ r ih =>
    intro att
    rw [fetchPageAux, h att]
    by_cases hr : r = 0
    · subst hr; rfl
    · rw [if_neg hr]
      obtain ⟨r2, rfl⟩ := Nat.exists_eq_succ_of_ne_zero hr
      rw [ih (att + 1)]
      simp only [Nat.succ_sub_one, List.range_succ_eq_map, List.map_cons, List.map_map]
      refine congrArg (Prod.mk none) ?_
      refine congrArg₂ List.cons (by rw [Nat.add_zero]) ?_
      refine congrArg (fun f => List.map f (List.range r2)) ?_
      funext k
      simp only [Function.comp_apply]
      congr 1
      omega

/-- **C7, amended.**  When every attempt fails, the waits performed between
attempts follow the exponential schedule `2 ^ attempt` for attempt indices
`0 .. retries - 2` only; with the default limit of 3 the wait sequence is
`[1s, 2s]` — there is no wait after the final attempt. -/
theorem fetch_page_backoff (attempts : Nat → Option String) (retries : Nat)
    (h : ∀ i, attempts i = none) :
    fetch_page attempts retries =
      (none, (List.range (retries - 1)).map (fun attempt => 2 ^ attempt)) := by
  unfold fetch_page
  rw [fetchPageAux_all_fail attempts h retries 0]
  refine congrArg (Prod.mk none) ?_
  refine congrArg (fun f => List.map f (List.range (retries - 1))) ?_
  funext k
  rw [Nat.zero_add]

/-- Witness for `fetch_page_backoff` at the default limit 3: the wait
sequence evaluates to `[1, 2]`. -/
theorem fetch_page_backoff_witness :
    fetch_page allAttemptsFail 3 = (none, [1, 2]) := by
  rw [fetch_page_backoff allAttemptsFail 3 (fun i => rfl)]
  decide

/-! ## C1: aggregator-level fault isolation -/

theorem scrapeAllEntry_fst (scraper : ScraperKind) (r : Except String (List Article)) :
    (scrapeAllEntry scraper r).1 = pyReplace (className scraper) "Scraper" "" := by
  cases r <;> rfl

/-- The keys of the result mapping, shared by the aggregator theorems. -/
theorem scrape_all_map_fst (run : ScraperKind → Except String (List Article)) :
    (scrape_all run).map Prod.fst =
      ["OpenAI", "Anthropic", "GoogleGemini", "DeepView", "NVIDIA", "EveryTo"] := by
  show [(scrapeAllEntry .openAI (run .openAI)).1,
        (scrapeAllEntry .anthropic (run .anthropic)).1,
        (scrapeAllEntry .googleGemini (run .googleGemini)).1,
        (scrapeAllEntry .deepView (run .deepView)).1,
        (scrapeAllEntry .nvidia (run .nvidia)).1,
        (scrapeAllEntry .everyTo (run .everyTo)).1] = _
  rw [scrapeAllEntry_fst, scrapeAllEntry_fst, scrapeAllEntry_fst,
      scrapeAllEntry_fst, scrapeAllEntry_fst, scrapeAllEntry_fst]
  decide

/-- **C1.**  Any exception raised by a scraper's `scrape()` is caught in
`scrape_all`: the failed source's entry in the returned mapping is the empty
sequence, sources whose `scrape()` returns normally keep their articles, and
the mapping is always complete (all six sources, in order) — a single
failure never aborts the run. -/
theorem scrape_all_fault_isolation (run : ScraperKind → Except String (List Article)) :
    ((scrape_all run).map Prod.fst =
       ["OpenAI", "Anthropic", "GoogleGemini", "DeepView", "NVIDIA", "EveryTo"]) ∧
    (∀ scraper ∈ aggregatorScrapers, ∀ e, run scraper = .error e →
       (pyReplace (className scraper) "Scraper" "", ([] : List Article)) ∈ scrape_all run) ∧
    (∀ scraper ∈ aggregatorScrapers, ∀ arts, run scraper = .ok arts →
       (pyReplace (className scraper) "Scraper" "", arts) ∈ scrape_all run) := by
  refine ⟨scrape_all_map_fst run, ?_, ?_⟩
  · intro scraper hmem e herr
    have h1 : scrapeAllEntry scraper (run scraper) ∈ scrape_all run :=
      List.mem_map_of_mem (fun scraper => scrapeAllEntry scraper (run scraper)) hmem
    have h2 : scrapeAllEntry scraper (run scraper) =
        (pyReplace (className scraper) "Scraper" "", ([] : List Article)) := by
      rw [herr]; rfl
    rwa [h2] at h1
  · intro scraper hmem arts hok
    have h1 : scrapeAllEntry scraper (run scraper) ∈ scrape_all run :=
      List.mem_map_of_mem (fun scraper => scrapeAllEntry scraper (run scraper)) hmem
    have h2 : scrapeAllEntry scraper (run scraper) =
        (pyReplace (className scraper) "Scraper" "", arts) := by
      rw [hok]; rfl
    rwa [h2] at h1

/-- A run in which the Anthropic scraper raises and every other scraper
returns normally (with an empty page). -/
def runAnthropicRaises : ScraperKind → Except String (List Article) :=
  fun scraper =>
    match scraper with
    | .anthropic => .error "boom"
    | _ => .ok []

/-- Witness for `scrape_all_fault_isolation`: with the Anthropic scraper
raising, its entry is empty yet present, and the healthy OpenAI entry is
present as well. -/
theorem scrape_all_fault_isolation_witness :
    ("Anthropic", ([] : List Article)) ∈ scrape_all runAnthropicRaises ∧
    ("OpenAI", ([] : List Article)) ∈ scrape_all runAnthropicRaises := by
  constructor
  · have h := (scrape_all_fault_isolation runAnthropicRaises).2.1 .anthropic
      (by decide) "boom" rfl
    have he : pyReplace (className ScraperKind.anthropic) "Scraper" "" = "Anthropic" := by decide
    rwa [he] at h
  · have h := (scrape_all_fault_isolation runAnthropicRaises).2.2 .openAI
      (by decide) [] rfl
    have he : pyReplace (className ScraperKind.openAI) "Scraper" "" = "OpenAI" := by decide
    rwa [he] at h

/-! ## C4: output length never exceeds the cap of 10 -/

theorem everyToLoop_length_le :
    ∀ (cards : List Card) (articles : List Article) (seen : List String),
      articles.length < 10 →
      (everyToLoop cards articles seen).length ≤ 10 := by
  intro cards
  induction cards with
  | nil => intro arts seen h; simp only [everyToLoop]; omega
  | cons card rest ih =>
    intro arts seen h
    simp only [everyToLoop]
    split
    · exact ih arts seen h
    · split
      · split
        · exact ih arts seen h
        · split
          · exact ih arts _ h
          · split
            · simp only [List.length_append, List.length_cons, List.length_nil]
              omega
            · rename_i hlt
              apply ih
              simp only [List.length_append, List.length_cons, List.length_nil] at hlt ⊢
              omega
      · split
        · exact ih arts seen h
        · split
          · exact ih arts _ h
          · split
            · simp only [List.length_append, List.length_cons, List.length_nil]
              omega
            · rename_i hlt
              apply ih
              simp only [List.length_append, List.length_cons, List.length_nil] at hlt ⊢
              omega

theorem deepViewLoop_length :
    ∀ (entries : List FeedEntry) (arts : List Article),
      deepViewLoop entries = some arts → arts.length = entries.length := by
  intro entries
  induction entries with
  | nil =>
    intro arts h
    simp only [deepViewLoop] at h
    injection h with h'
    subst h'
    rfl
  | cons e rest ih =>
    intro arts h
    simp only [deepViewLoop] at h
    split at h
    · exact absurd h (by simp)
    · split at h
      · exact absurd h (by simp)
      · rename_i a _ l hl
        injection h with h'
        rw [← h', List.length_cons, ih l hl, List.length_cons]

/-- **C4.**  For every scraper variant and every input content, the returned
article sequence has length at most 10, regardless of how many raw candidate
elements or feed entries the input contains. -/
theorem scrape_output_capped (openAnchors anthAnchors gCards nvCards evAnchors : List Card)
    (entries : List FeedEntry) :
    (openAIScrape openAnchors).length ≤ 10 ∧
    (anthropicScrape anthAnchors).length ≤ 10 ∧
    (googleGeminiScrape gCards).length ≤ 10 ∧
    (deepViewScrape entries).length ≤ 10 ∧
    (nvidiaScrape nvCards).length ≤ 10 ∧
    (everyToScrape evAnchors).length ≤ 10 := by
  refine ⟨?_, ?_, ?_, ?_, ?_, ?_⟩
  · exact le_trans (List.length_filterMap_le _ _) (List.length_take_le _ _)
  · exact le_trans (List.length_filterMap_le _ _) (List.length_take_le _ _)
  · exact le_trans (List.length_filterMap_le _ _) (List.length_take_le _ _)
  · unfold deepViewScrape
    split
    · rename_i l hl
      rw [deepViewLoop_length _ l hl]
      exact List.length_take_le _ _
    · simp
  · exact le_trans (List.length_filterMap_le _ _) (List.length_take_le _ _)
  · exact everyToLoop_length_le _ [] [] (by simp)

/-! ## C10: the result mapping's keys vs the drafts' source fields -/

theorem googleGeminiProcess_source (c : Card) (a : Article)
    (h : googleGeminiProcess c = some a) : a.source = "Google Gemini" := by
  unfold googleGeminiProcess at h
  split at h
  · exact absurd h (by simp)
  · simp only [Option.some.injEq] at h
    rw [← h]

theorem deepViewEntry_source (e : FeedEntry) (a : Article)
    (h : deepViewEntry e = some a) : a.source = "The Deep View" := by
  unfold deepViewEntry at h
  split at h
  · split at h
    · simp only [Option.some.injEq] at h; rw [← h]
    · exact absurd h (by simp)
  · simp only [Option.some.injEq] at h; rw [← h]

theorem deepViewLoop_all (p : Article → Bool)
    (hp : ∀ e a, deepViewEntry e = some a → p a = true) :
    ∀ (entries : List FeedEntry) (arts : List Article),
      deepViewLoop entries = some arts → arts.all p = true := by
  intro entries
  induction entries with
  | nil =>
    intro arts h
    simp only [deepViewLoop] at h
    injection h with h'
    subst h'
    rfl
  | cons e rest ih =>
    intro arts h
    simp only [deepViewLoop] at h
    split at h
    · exact absurd h (by simp)
    · rename_i a ha
      split at h
      · exact absurd h (by simp)
      · rename_i l hl
        injection h with h'
        subst h'
        simp only [List.all_cons, Bool.and_eq_true]
        exact ⟨hp e a ha, ih l hl⟩

theorem everyToLoop_all_source :
    ∀ (cards : List Card) (articles : List Article) (seen : List String),
      articles.all (fun a => a.source == "Every.to") = true →
      (everyToLoop cards articles seen).all (fun a => a.source == "Every.to") = true := by
  intro cards
  induction cards with
  | nil => intro arts seen h; simpa only [everyToLoop] using h
  | cons card rest ih =>
    intro arts seen h
    simp only [everyToLoop]
    split
    · exact ih arts seen h
    · split
      · split
        · exact ih arts seen h
        · split
          · exact ih arts _ h
          · split
            · simp [List.all_append, h]
            · apply ih
              simp [List.all_append, h]
      · split
        · exact ih arts seen h
        · split
          · exact ih arts _ h
          · split
            · simp [List.all_append, h]
            · apply ih
              simp [List.all_append, h]

/-- **C10.**  The mapping returned by `scrape_all` always has exactly the six
keys `OpenAI, Anthropic, GoogleGemini, DeepView, NVIDIA, EveryTo` (each class
name with the `Scraper` suffix removed), in that fixed order, whatever each
scraper does — even though the `source` field inside the drafts differs from
the key for three of them (`Google Gemini`, `The Deep View`, `Every.to`). -/
theorem scrape_all_keys_fixed (run : ScraperKind → Except String (List Article))
    (gCards : List Card) (entries : List FeedEntry) (evAnchors : List Card) :
    ((scrape_all run).map Prod.fst =
       ["OpenAI", "Anthropic", "GoogleGemini", "DeepView", "NVIDIA", "EveryTo"]) ∧
    ((googleGeminiScrape gCards).all (fun a => a.source == "Google Gemini") = true) ∧
    ((deepViewScrape entries).all (fun a => a.source == "The Deep View") = true) ∧
    ((everyToScrape evAnchors).all (fun a => a.source == "Every.to") = true) := by
  refine ⟨scrape_all_map_fst run, ?_, ?_, ?_⟩
  · exact all_filterMap _ _
      (fun c a h => by simp [googleGeminiProcess_source c a h]) _
  · unfold deepViewScrape
    split
    · rename_i l hl
      exact deepViewLoop_all _ (fun e a h => by simp [deepViewEntry_source e a h]) _ l hl
    · rfl
  · exact everyToLoop_all_source _ [] [] rfl

/-! ## C3: intra-page link dedup -/

/-- An OpenAI news-page anchor card; a page can contain several identical
anchors pointing at the same article. -/
def openAIDupCard : Card :=
  { href := some "/news/x", heading := some "Launch day announcement" }

/-- **C3, counterexample.**  The OpenAI variant has no seen-link set: two
anchor elements resolving to the identical absolute link yield two drafts
with the same resolved link, not one. -/
theorem openAI_duplicate_links_counterexample :
    ¬ ((openAIScrape [openAIDupCard, openAIDupCard]).map Article.link).Nodup := by decide

theorem nodup_map_link_append (arts : List Article) (x : Article)
    (hnd : (arts.map Article.link).Nodup)
    (hx : x.link ∉ arts.map Article.link) :
    ((arts ++ [x]).map Article.link).Nodup := by
  rw [List.map_append, List.nodup_append]
  refine ⟨hnd, by simp, ?_⟩
  intro y hy hy2
  simp only [List.map_cons, List.map_nil, List.mem_singleton] at hy2
  subst hy2
  exact hx hy

theorem mem_link_append (arts : List Article) (x : Article) (seen : List String)
    (hinv : ∀ a ∈ arts, a.link ∈ seen) :
    ∀ a ∈ arts ++ [x], a.link ∈ x.link :: seen := by
  intro a ha
  rcases List.mem_append.mp ha with ha | ha
  · exact List.mem_cons_of_mem _ (hinv a ha)
  · simp only [List.mem_singleton] at ha
    subst ha
    exact List.mem_cons_self _ _

theorem everyToLoop_nodup :
    ∀ (cards : List Card) (articles : List Article) (seen : List String),
      (∀ c ∈ cards, pyStartsWith (c.href.getD "") "/" = false) →
      (∀ a ∈ articles, a.link ∈ seen) →
      (articles.map Article.link).Nodup →
      ((everyToLoop cards articles seen).map Article.link).Nodup := by
  intro cards
  induction cards with
  | nil => intro arts seen _ _ hnd; simpa only [everyToLoop] using hnd
  | cons card rest ih =>
    intro arts seen hcards hinv hnd
    have hcard : pyStartsWith (card.href.getD "") "/" = false := hcards card (by simp)
    have hrest : ∀ c ∈ rest, pyStartsWith (c.href.getD "") "/" = false :=
      fun c hc => hcards c (List.mem_cons_of_mem card hc)
    simp only [everyToLoop]
    split
    · exact ih arts seen hrest hinv hnd
    · rename_i hseen
      rw [hcard]
      simp only [Bool.false_eq_true, if_false]
      split
      · exact ih arts seen hrest hinv hnd
      · have hnotin : card.href.getD "" ∉ arts.map Article.link := by
          intro hx
          obtain ⟨a, ha, hal⟩ := List.exists_of_mem_map hx
          exact hseen (hal ▸ hinv a ha)
        split
        · exact ih arts _ hrest
            (fun a ha => List.mem_cons_of_mem _ (hinv a ha)) hnd
        · split
          · exact nodup_map_link_append arts _ hnd hnotin
          · exact ih _ _ hrest (mem_link_append arts _ seen hinv)
              (nodup_map_link_append arts _ hnd hnotin)

/-- **C3, amended.**  Only the EveryTo variant performs intra-page dedup, and
its seen-set check compares each anchor's pre-resolution href against
previously stored post-resolution links.  Hence: on a page whose anchors all
carry already-absolute (non-`/`-prefixed) hrefs no two emitted drafts share a
resolved link, but the other variants emit duplicates freely, and EveryTo
itself can emit a duplicate resolved link when a relative href follows an
absolute one resolving to the same target. -/
theorem everyTo_intra_page_dedup (anchors : List Card)
    (h : ∀ c ∈ anchors, pyStartsWith (c.href.getD "") "/" = false) :
    ((everyToScrape anchors).map Article.link).Nodup := by
  unfold everyToScrape
  refine everyToLoop_nodup _ [] [] ?_ (by simp) (by simp)
  intro c hc
  exact h c (List.mem_of_mem_filter hc)

/-- Every.to anchors with already-absolute hrefs, including a duplicate. -/
def everyToAbsCardA : Card :=
  { href := some "https://every.to/p/a", heading := some "A big announcement" }

def everyToAbsCardB : Card :=
  { href := some "https://every.to/c/b", heading := some "Another long headline" }

/-- Witness for `everyTo_intra_page_dedup`: the duplicated absolute anchor is
emitted once, so the emitted links are distinct. -/
theorem everyTo_intra_page_dedup_witness :
    ((everyToScrape [everyToAbsCardA, everyToAbsCardA, everyToAbsCardB]).map
        Article.link).Nodup :=
  everyTo_intra_page_dedup [everyToAbsCardA, everyToAbsCardA, everyToAbsCardB] (by decide)

/-! ## C5: title-length filtering -/

/-- An OpenAI anchor card whose nested heading text has 3 characters. -/
def openAIShortTitleCard : Card :=
  { href := some "/news/gpt", heading := some "GPT" }

/-- **C5, counterexample.**  A 3-character candidate title is *not* excluded
everywhere: the OpenAI variant applies no title-length filter and emits the
3-character title. -/
theorem short_title_emitted_counterexample :
    (openAIScrape [openAIShortTitleCard]).map Article.title = ["GPT"] := by decide

theorem nvidiaProcess_title_length (c : Card) (a : Article)
    (h : nvidiaProcess c = some a) : 10 ≤ a.title.length := by
  cases hil : c.innerLink with
  | none => simp [nvidiaProcess, hil] at h
  | some p =>
    obtain ⟨lh, ltext⟩ := p
    simp only [nvidiaProcess, hil] at h
    split at h
    · exact absurd h (by simp)
    · rename_i hlen
      simp only [Option.some.injEq] at h
      subst h
      dsimp only
      omega

theorem everyToLoop_title_bounds :
    ∀ (cards : List Card) (articles : List Article) (seen : List String),
      (∀ c ∈ cards, c.heading = none) →
      articles.all (fun a => decide (10 ≤ a.title.length) &&
        decide (a.title.length ≤ 200)) = true →
      (everyToLoop cards articles seen).all (fun a => decide (10 ≤ a.title.length) &&
        decide (a.title.length ≤ 200)) = true := by
  intro cards
  induction cards with
  | nil => intro arts seen _ h; simpa only [everyToLoop] using h
  | cons card rest ih =>
    intro arts seen hcards h
    have hcard : card.heading = none := hcards card (by simp)
    have hrest : ∀ c ∈ rest, c.heading = none :=
      fun c hc => hcards c (List.mem_cons_of_mem card hc)
    simp only [everyToLoop, hcard]
    split
    · exact ih arts seen hrest h
    · split
      · split
        · exact ih arts seen hrest h
        · split
          · exact ih arts _ hrest h
          · rename_i title ht
            split at ht
            · exact absurd ht (by simp)
            · rename_i hbounds
              injection ht with ht'
              subst ht'
              simp only [Bool.or_eq_true, decide_eq_true_eq, not_or] at hbounds
              split
              · simp only [List.all_append, List.all_cons, List.all_nil, Bool.and_eq_true,
                  decide_eq_true_eq, Bool.and_true]
                exact ⟨h, by omega, by omega⟩
              · apply ih _ _ hrest
                simp only [List.all_append, List.all_cons, List.all_nil, Bool.and_eq_true,
                  decide_eq_true_eq, Bool.and_true]
                exact ⟨h, by omega, by omega⟩
      · split
        · exact ih arts seen hrest h
        · split
          · exact ih arts _ hrest h
          · rename_i title ht
            split at ht
            · exact absurd ht (by simp)
            · rename_i hbounds
              injection ht with ht'
              subst ht'
              simp only [Bool.or_eq_true, decide_eq_true_eq, not_or] at hbounds
              split
              · simp only [List.all_append, List.all_cons, List.all_nil, Bool.and_eq_true,
                  decide_eq_true_eq, Bool.and_true]
                exact ⟨h, by omega, by omega⟩
              · apply ih _ _ hrest
                simp only [List.all_append, List.all_cons, List.all_nil, Bool.and_eq_true,
                  decide_eq_true_eq, Bool.and_true]
                exact ⟨h, by omega, by omega⟩

/-- **C5, amended.**  The 10-character minimum is enforced on every candidate
title only by the NVIDIA variant; the EveryTo variant enforces both bounds
(10 ≤ length ≤ 200) only on its heading-less fallback text (so on pages
without headings every emitted title respects both bounds); the remaining
variants emit short titles unfiltered. -/
theorem title_length_filters (nvCards evAnchors : List Card)
    (hev : ∀ c ∈ evAnchors, c.heading = none) :
    ((nvidiaScrape nvCards).all (fun a => decide (10 ≤ a.title.length)) = true) ∧
    ((everyToScrape evAnchors).all (fun a => decide (10 ≤ a.title.length) &&
      decide (a.title.length ≤ 200)) = true) := by
  constructor
  · exact all_filterMap _ _ (fun c a h => by simp [nvidiaProcess_title_length c a h]) _
  · unfold everyToScrape
    refine everyToLoop_title_bounds _ [] [] ?_ rfl
    intro c hc
    exact hev c (List.mem_of_mem_filter hc)

/-- An NVIDIA card with an adequate heading, and a heading-less Every.to
anchor with a mid-sized text block. -/
def nvidiaLongTitleCard : Card :=
  { innerLink := some ("/news/a", "anchor text"), heading := some "A sufficiently long title" }

def everyToNoHeadingCard : Card :=
  { href := some "https://every.to/p/a", textStripped := "A plain text block title" }

/-- Witness for `title_length_filters` on concrete cards. -/
theorem title_length_filters_witness :
    ((nvidiaScrape [nvidiaLongTitleCard]).all
        (fun a => decide (10 ≤ a.title.length)) = true) ∧
    ((everyToScrape [everyToNoHeadingCard]).all (fun a => decide (10 ≤ a.title.length) &&
      decide (a.title.length ≤ 200)) = true) :=
  title_length_filters [nvidiaLongTitleCard] [everyToNoHeadingCard] (by decide)

/-! ## C8: link resolution and absoluteness -/

/-- An anchor whose href matches the `/news/` pattern yet is relative without
a leading slash. -/
def openAIRelCard : Card :=
  { href := some "x/news/y", heading := some "A long enough title" }

/-- **C8, counterexample.**  An emitted draft can carry a non-absolute link:
a relative href that does not begin with `/` passes through unresolved. -/
theorem nonabsolute_link_counterexample :
    (openAIScrape [openAIRelCard]).map Article.link = ["x/news/y"] ∧
    isAbsoluteUrl "x/news/y" = false := by
  exact ⟨by decide, by decide⟩

theorem toList_append (s t : String) : (s ++ t).toList = s.toList ++ t.toList := by
  cases s; cases t; rfl

theorem isAbsoluteUrl_openai_append (h0 : String) :
    isAbsoluteUrl ("https://openai.com" ++ h0) = true := by
  unfold isAbsoluteUrl pyStartsWith
  have h1 : "https://".toList <+: ("https://openai.com" ++ h0).toList := by
    rw [toList_append]
    exact List.IsPrefix.trans (by decide) (List.prefix_append _ _)
  rw [← List.isPrefixOf_iff_prefix] at h1
  rw [h1, Bool.or_true]

/-- If a string is an absolute URL it does not start with `/`. -/
theorem absolute_not_slash (h0 : String) (h : isAbsoluteUrl h0 = true) :
    pyStartsWith h0 "/" = false := by
  unfold isAbsoluteUrl pyStartsWith at *
  cases hl : h0.toList with
  | nil => rw [hl] at h; exact absurd h (by decide)
  | cons c cs =>
    rw [hl] at h
    have hh : "http://".toList = ['h', 't', 't', 'p', ':', '/', '/'] := rfl
    have hhs : "https://".toList = ['h', 't', 't', 'p', 's', ':', '/', '/'] := rfl
    rw [hh, hhs] at h
    simp only [List.isPrefixOf, Bool.and_eq_true, Bool.or_eq_true, beq_iff_eq] at h
    have hc : c = 'h' := by
      rcases h with h | h
      · exact h.1.symm
      · exact h.1.symm
    subst hc
    have hsl : "/".toList = ['/'] := rfl
    rw [hsl]
    have hch : ('/' == 'h') = false := by decide
    simp [List.isPrefixOf, hch]

/-- **C8, amended.**  For an emitted OpenAI candidate: an href beginning with
`/` is resolved against the base URL `https://openai.com` and the resulting
link is absolute; any other href (including an already-absolute one, which
never begins with `/`) passes through unchanged — so a schemeless relative
href that lacks the leading `/` yields a non-absolute emitted link. -/
theorem openAI_link_resolution (c : Card) (title h0 : String)
    (hh : c.heading = some title) (hr : c.href = some h0) :
    (pyStartsWith h0 "/" = true →
       (openAIProcess c).map Article.link = some ("https://openai.com" ++ h0) ∧
       ∀ a, openAIProcess c = some a → isAbsoluteUrl a.link = true) ∧
    (pyStartsWith h0 "/" = false →
       (openAIProcess c).map Article.link = some h0) ∧
    (isAbsoluteUrl h0 = true → pyStartsWith h0 "/" = false) := by
  refine ⟨?_, ?_, absolute_not_slash h0⟩
  · intro hs
    constructor
    · simp [openAIProcess, hh, hr, hs]
    · intro a ha
      simp only [openAIProcess, hh, hr, Option.getD_some, hs, if_true,
        Option.some.injEq] at ha
      subst ha
      exact isAbsoluteUrl_openai_append h0
  · intro hs
    simp [openAIProcess, hh, hr, hs]

/-- The spec's own example anchor: a relative `/news/x` href. -/
def openAISlashCard : Card :=
  { href := some "/news/x", heading := some "A launch post" }

/-- Witness for `openAI_link_resolution`: `/news/x` against
`https://openai.com` yields `https://openai.com/news/x`. -/
theorem openAI_link_resolution_witness :
    (openAIProcess openAISlashCard).map Article.link =
      some ("https://openai.com" ++ "/news/x") :=
  ((openAI_link_resolution openAISlashCard "A launch post" "/news/x" rfl rfl).1
    (by decide)).1

/-! ## C9: candidates without a nested heading -/

/-- An OpenAI anchor card with no nested heading element. -/
def openAINoHeadingCard : Card :=
  { href := some "/news/y" }

/-- **C9, counterexample.**  Heading-less candidates are *not* kept by every
markup-card variant: the OpenAI variant discards them outright (`continue`) —
the very same card with a heading is emitted. -/
theorem headingless_discarded_counterexample :
    openAIScrape [openAINoHeadingCard] = [] ∧
    (openAIScrape [{ openAINoHeadingCard with
        heading := some "A long enough title" }]).length = 1 := by
  exact ⟨by decide, by decide⟩

/-- **C9, amended.**  Only the GoogleGemini and NVIDIA variants fall back to
the nested link element's own text when no heading exists (NVIDIA still
applies its title-length filter, EveryTo falls back to the card's bounded
plain text); the OpenAI and Anthropic variants skip a heading-less candidate
entirely. -/
theorem heading_fallback_behavior (c : Card) (lh ltext : String)
    (hh : c.heading = none) (hl : c.innerLink = some (lh, ltext)) :
    ((googleGeminiScrape [c]).map Article.title = [ltext]) ∧
    (10 ≤ ltext.length → (nvidiaScrape [c]).map Article.title = [ltext]) ∧
    openAIScrape [c] = [] ∧
    anthropicScrape [c] = [] := by
  refine ⟨?_, ?_, ?_, ?_⟩
  · simp [googleGeminiScrape, googleGeminiProcess, hh, hl]
  · intro hlen
    have hnot : ¬ ltext.length < 10 := by omega
    simp [nvidiaScrape, nvidiaProcess, hh, hl, hnot]
  · unfold openAIScrape
    cases hf : anchorHrefMatches "/news/" c with
    | true => simp [List.filter_cons, hf, openAIProcess, hh]
    | false => simp [List.filter_cons, hf]
  · unfold anthropicScrape
    cases hf : anchorHrefMatches "/news/" c with
    | true => simp [List.filter_cons, hf, anthropicProcess, hh]
    | false => simp [List.filter_cons, hf]

/-- A card with no heading whose nested link carries usable anchor text. -/
def geminiNoHeadingCard : Card :=
  { innerLink := some ("/products/gemini/x", "Fallback anchor text") }

/-- Witness for `heading_fallback_behavior` on a concrete heading-less card. -/
theorem heading_fallback_behavior_witness :
    ((googleGeminiScrape [geminiNoHeadingCard]).map Article.title =
        ["Fallback anchor text"]) ∧
    (nvidiaScrape [geminiNoHeadingCard]).map Article.title = ["Fallback anchor text"] := by
  have h := heading_fallback_behavior geminiNoHeadingCard "/products/gemini/x"
    "Fallback anchor text" rfl rfl
  exact ⟨h.1, h.2.1 (by decide)⟩

end AINews
